import Mathlib

/-!
Verification of the DocForge documentation-quality linter backend.

The definitions below are a shallow embedding of the Python sources:
models (backend/models), rule checks (backend/rules), the scoring engine
(backend/rules/scoring.py), the DOCX parser loop (backend/parsing/docx_parser.py),
the PDF heading heuristic (backend/parsing/pdf_parser.py), and the decision
structure of the two API endpoints (backend/api/analyze.py,
backend/api/suggest_fixes.py) together with the AI fixer stub
(backend/ai/fixer.py).

Machine-level details that do not exist in Python (bounded integers) are
modelled with Nat and Int; Python string operations are modelled over the
underlying character lists with structurally recursive functions so that
all definitions evaluate inside the kernel.
-/

namespace DocForge

/-- Python truthiness of an `Optional[str]`: falsy exactly when it is
`None` or the empty string. -/
def pyFalsyStr : Option String → Bool
  | none => true
  | some s => s.data.isEmpty

/-- `hay` starts with `needle` (Python `str.startswith`, over char lists). -/
def startsWithList : List Char → List Char → Bool
  | _, [] => true
  | [], _ :: _ => false
  | c :: cs, d :: ds => c == d && startsWithList cs ds

/-- `needle` occurs as a contiguous substring of `hay`
(the Python `needle in hay` test, over char lists). -/
def containsList : List Char → List Char → Bool
  | [], needle => needle.isEmpty
  | c :: rest, needle => startsWithList (c :: rest) needle || containsList rest needle

/-- Python `needle in hay` for strings. -/
def pyContains (needle hay : String) : Bool :=
  containsList hay.data needle.data

/-- Python `str.lower` (ASCII): maps each character to lower case. -/
def pyLower (s : String) : String := ⟨s.data.map Char.toLower⟩

/-- Python `str.upper` (ASCII): maps each character to upper case. -/
def pyUpper (s : String) : String := ⟨s.data.map Char.toUpper⟩

/-- `models/document_model.py`: `Section`. -/
structure Section where
  title : String
  level : Int
  content : String
  page : Option Int
deriving Repr, DecidableEq

/-- `models/document_model.py`: `Image`. -/
structure Image where
  caption : Option String := none
  page : Option Int := none
  alt_text : Option String := none
deriving Repr, DecidableEq

/-- `models/document_model.py`: `DocumentMetadata`. -/
structure DocumentMetadata where
  page_count : Nat
  word_count : Nat
  file_type : String
  file_name : String
deriving Repr, DecidableEq

/-- `models/document_model.py`: `Document`. -/
structure Document where
  sections : List Section
  images : List Image
  metadata : DocumentMetadata
deriving Repr, DecidableEq

/-- `Document.get_section_titles`: lower-cased titles of all sections. -/
def Document.get_section_titles (d : Document) : List String :=
  d.sections.map (fun s => pyLower s.title)

/-- `Document.get_heading_levels`: levels of the sections with `level > 0`. -/
def Document.get_heading_levels (d : Document) : List Int :=
  (d.sections.filter (fun s => s.level > 0)).map (fun s => s.level)

/-- `models/issue_model.py`: `IssueSeverity`. -/
inductive IssueSeverity where
  | ERROR
  | WARN
deriving Repr, DecidableEq

/-- `models/issue_model.py`: `Issue`. -/
structure Issue where
  id : String
  severity : IssueSeverity
  message : String
  page : Option Int
  penalty : Int
deriving Repr, DecidableEq

/-- Helper for `pyTitle`: the Boolean argument records whether the previous
character was alphabetic. -/
def titleChars : List Char → Bool → List Char
  | [], _ => []
  | c :: rest, prevAlpha =>
    (if c.isAlpha then (if prevAlpha then c.toLower else c.toUpper) else c) ::
      titleChars rest c.isAlpha

/-- Python `str.title` (ASCII): first letter of each alphabetic run upper-cased,
the rest lower-cased. -/
def pyTitle (s : String) : String := ⟨titleChars s.data false⟩

/-- `rules/required_sections.py`: the `REQUIRED_SECTIONS` table.  A Python dict
iterates in insertion order, so a list of pairs is a faithful model. -/
def REQUIRED_SECTIONS : List (String × List String) :=
  [("introduction", ["introduction", "intro", "overview", "getting started"]),
   ("installation", ["installation", "install", "setup", "getting started"]),
   ("safety", ["safety", "warning", "caution", "important"]),
   ("troubleshooting", ["troubleshooting", "troubleshoot", "faq", "problems", "issues"])]

/-- `rules/required_sections.py`: `check_required_sections`.  For each entry of
the table in order, if no lower-cased section title contains any keyword as a
substring, one ERROR issue with penalty 15 is appended. -/
def check_required_sections (document : Document) : List Issue :=
  let section_titles := document.get_section_titles
  REQUIRED_SECTIONS.filterMap (fun entry =>
    if section_titles.any (fun title => entry.2.any (fun keyword => pyContains keyword title)) then
      none
    else
      some { id := "MISSING_SECTION_" ++ pyUpper entry.1,
             severity := .ERROR,
             message := "Missing required section: " ++ pyTitle entry.1,
             page := none,
             penalty := 15 })

/-- The Python f-string fragment `image.page or 'unknown'`: `or` falls through
on falsy values, so `None` and `0` both render as `unknown`. -/
def pageOrUnknown : Option Int → String
  | some p => if p == 0 then "unknown" else toString p
  | none => "unknown"

/-- `rules/image_rules.py`: `check_image_captions`.  One WARN issue with
penalty 5 per image whose caption and alt text are both falsy. -/
def check_image_captions (document : Document) : List Issue :=
  document.images.enum.filterMap (fun p =>
    if pyFalsyStr p.2.caption && pyFalsyStr p.2.alt_text then
      some { id := "MISSING_IMAGE_CAPTION_" ++ toString p.1,
             severity := .WARN,
             message := "Image on page " ++ pageOrUnknown p.2.page ++ " missing caption or alt text",
             page := p.2.page,
             penalty := 5 }
    else none)

/-- The Python expression
`document.sections[idx].page if idx < len(document.sections) else None`. -/
def sectionPageAt (document : Document) (idx : Nat) : Option Int :=
  match document.sections.get? idx with
  | some s => s.page
  | none => none

/-- The loop of `check_heading_sequence`: walks the remaining heading levels
carrying the enumeration index (starting at 1) and the previous level. -/
def brokenSeqAux (document : Document) : Nat → Int → List Int → List Issue
  | _, _, [] => []
  | idx, prev_level, level :: rest =>
    (if level > prev_level + 1 then
      [{ id := "BROKEN_HEADING_SEQUENCE_" ++ toString idx,
         severity := .WARN,
         message := "Heading level jumps from H" ++ toString prev_level ++ " to H" ++
           toString level ++ " (skipped levels)",
         page := sectionPageAt document idx,
         penalty := 10 }]
     else []) ++ brokenSeqAux document (idx + 1) level rest

/-- `rules/heading_rules.py`: `check_heading_sequence`. -/
def check_heading_sequence (document : Document) : List Issue :=
  match document.get_heading_levels with
  | [] => []
  | prev :: rest => brokenSeqAux document 1 prev rest

/-- `rules/heading_rules.py`: `check_excessive_depth`. -/
def check_excessive_depth (document : Document) : List Issue :=
  document.get_heading_levels.enum.filterMap (fun p =>
    if p.2 > 4 then
      some { id := "EXCESSIVE_HEADING_DEPTH_" ++ toString p.1,
             severity := .WARN,
             message := "Heading H" ++ toString p.2 ++ " is too deep (recommend max H4)",
             page := sectionPageAt document p.1,
             penalty := 5 }
    else none)

/-- `rules/scoring.py`: `analyze_document`.  Runs the four checks in order,
concatenates their issues, starts the score at 100, subtracts each penalty and
clamps at 0. -/
def analyze_document (document : Document) : Int × List Issue :=
  let issues := check_required_sections document ++ check_image_captions document ++
    check_heading_sequence document ++ check_excessive_depth document
  let score := issues.foldl (fun s i => s - i.penalty) 100
  (max 0 score, issues)

/-- Subtracting each penalty from an initial score is the same as subtracting
the sum of the penalties. -/
lemma foldl_sub_penalty (issues : List Issue) (init : Int) :
    issues.foldl (fun s i => s - i.penalty) init = init - (issues.map Issue.penalty).sum := by
  induction issues generalizing init with
  | nil => simp
  | cons a t ih => simp [ih]; ring

/-- A `filterMap` whose function is an if-then-some-else-none is a filter
followed by a map. -/
lemma filterMap_ite_eq_filter_map {α β : Type} (c : α → Bool) (f : α → β) (l : List α) :
    l.filterMap (fun a => if c a then some (f a) else none) = (l.filter c).map f := by
  induction l with
  | nil => rfl
  | cons a t ih => by_cases h : c a <;> simp [List.filterMap_cons, List.filter_cons, h, ih]

lemma penalty_of_mem_required {d : Document} {i : Issue}
    (h : i ∈ check_required_sections d) : i.penalty = 15 := by
  simp only [check_required_sections, List.mem_filterMap] at h
  obtain ⟨a, -, ha⟩ := h
  split at ha
  · exact Option.noConfusion ha
  · cases Option.some.inj ha; rfl

lemma penalty_of_mem_images {d : Document} {i : Issue}
    (h : i ∈ check_image_captions d) : i.penalty = 5 := by
  simp only [check_image_captions, List.mem_filterMap] at h
  obtain ⟨a, -, ha⟩ := h
  split at ha
  · cases Option.some.inj ha; rfl
  · exact Option.noConfusion ha

lemma penalty_of_mem_seqAux {d : Document} {i : Issue} :
    ∀ (l : List Int) (idx : Nat) (prev : Int), i ∈ brokenSeqAux d idx prev l → i.penalty = 10 := by
  intro l
  induction l with
  | nil => intro idx prev h; simp [brokenSeqAux] at h
  | cons a t ih =>
    intro idx prev h
    simp only [brokenSeqAux, List.mem_append] at h
    rcases h with h | h
    · split at h
      · rw [List.mem_singleton] at h; subst h; rfl
      · simp at h
    · exact ih _ _ h

lemma penalty_of_mem_seq {d : Document} {i : Issue}
    (h : i ∈ check_heading_sequence d) : i.penalty = 10 := by
  unfold check_heading_sequence at h
  split at h
  · simp at h
  · exact penalty_of_mem_seqAux _ _ _ h

lemma penalty_of_mem_depth {d : Document} {i : Issue}
    (h : i ∈ check_excessive_depth d) : i.penalty = 5 := by
  simp only [check_excessive_depth, List.mem_filterMap] at h
  obtain ⟨a, -, ha⟩ := h
  split at ha
  · cases Option.some.inj ha; rfl
  · exact Option.noConfusion ha

lemma penalty_nonneg_of_mem {d : Document} {i : Issue}
    (h : i ∈ (analyze_document d).2) : 0 ≤ i.penalty := by
  have h2 : i ∈ check_required_sections d ++ check_image_captions d ++
      check_heading_sequence d ++ check_excessive_depth d := h
  simp only [List.mem_append] at h2
  rcases h2 with ((h2 | h2) | h2) | h2
  · rw [penalty_of_mem_required h2]; norm_num
  · rw [penalty_of_mem_images h2]; norm_num
  · rw [penalty_of_mem_seq h2]; norm_num
  · rw [penalty_of_mem_depth h2]; norm_num

/-- Claim C1: `analyze_document` runs the four rule checks in the fixed order
required-sections, image-captions, heading-sequence, excessive-depth, returns
the concatenation of their issue lists in that order, and its score is exactly
`max 0 (100 - sum of penalties)`, hence always between 0 and 100. -/
theorem analyze_document_correct (document : Document) :
    (analyze_document document).2 =
        check_required_sections document ++ check_image_captions document ++
          check_heading_sequence document ++ check_excessive_depth document ∧
      (analyze_document document).1 =
        max 0 (100 - ((analyze_document document).2.map Issue.penalty).sum) ∧
      0 ≤ (analyze_document document).1 ∧ (analyze_document document).1 ≤ 100 := by
  have hscore : (analyze_document document).1 =
      max 0 (100 - ((analyze_document document).2.map Issue.penalty).sum) := by
    show max 0 (((analyze_document document).2).foldl (fun s i => s - i.penalty) 100) = _
    rw [foldl_sub_penalty]
  have hsum : 0 ≤ ((analyze_document document).2.map Issue.penalty).sum := by
    apply List.sum_nonneg
    intro x hx
    obtain ⟨i, hi, rfl⟩ := List.mem_map.1 hx
    exact penalty_nonneg_of_mem hi
  refine ⟨rfl, hscore, ?_, ?_⟩
  · rw [hscore]; exact le_max_left 0 _
  · rw [hscore]
    exact max_le (by norm_num) (by omega)

/-- A section record carrying only a heading level, for concrete rule tests. -/
def sectionOfLevel (level : Int) : Section :=
  { title := "T", level := level, content := "", page := none }

/-- A document whose sections carry the given heading levels and nothing else. -/
def docOfLevels (levels : List Int) : Document :=
  { sections := levels.map sectionOfLevel,
    images := [],
    metadata := { page_count := 1, word_count := 0, file_type := "docx", file_name := "d.docx" } }

/-- Claim C2, counterexample: on heading levels [2, 1, 3] the heading-sequence
check does not yield zero issues (the increase from 1 to 3 exceeds +1). -/
theorem check_heading_sequence_two_one_three_not_nil :
    check_heading_sequence (docOfLevels [2, 1, 3]) ≠ [] := by decide

/-- Claim C2 as amended: heading levels [1, 2, 4] yield exactly one issue, at
enumeration index 2 (id BROKEN_HEADING_SEQUENCE_2, reporting the jump from H2
to H4); [1, 2, 3, 4] yields zero issues; [2, 1, 3] yields exactly one issue,
at index 2 (H1 to H3): the decrease from 2 to 1 is not a skip, but the later
increase from 1 to 3 is. -/
theorem check_heading_sequence_examples :
    (check_heading_sequence (docOfLevels [1, 2, 4])).map (fun i => (i.id, i.message)) =
        [("BROKEN_HEADING_SEQUENCE_2", "Heading level jumps from H2 to H4 (skipped levels)")] ∧
      check_heading_sequence (docOfLevels [1, 2, 3, 4]) = [] ∧
      (check_heading_sequence (docOfLevels [2, 1, 3])).map (fun i => (i.id, i.message)) =
        [("BROKEN_HEADING_SEQUENCE_2", "Heading level jumps from H1 to H3 (skipped levels)")] := by
  refine ⟨by decide, by decide, by decide⟩

lemma string_data_eq_nil_iff (s : String) : s.data = [] ↔ s = "" := by
  constructor
  · intro h
    cases s with
    | mk data => cases h; rfl
  · intro h
    subst h; rfl

lemma string_data_isEmpty_iff (s : String) : s.data.isEmpty = true ↔ s = "" := by
  rw [List.isEmpty_iff]
  exact string_data_eq_nil_iff s

/-- Claim C4: on a document with zero sections and zero images the analysis is
well defined: the required-sections check emits exactly the four canonical
ERROR issues with penalty 15 and no page, the three other checks emit nothing,
and the score is exactly 40. -/
theorem analyze_empty_document (document : Document)
    (hs : document.sections = []) (hi : document.images = []) :
    (check_required_sections document).map (fun i => (i.id, i.severity, i.page, i.penalty)) =
        [("MISSING_SECTION_INTRODUCTION", IssueSeverity.ERROR, (none : Option Int), (15 : Int)),
         ("MISSING_SECTION_INSTALLATION", IssueSeverity.ERROR, none, 15),
         ("MISSING_SECTION_SAFETY", IssueSeverity.ERROR, none, 15),
         ("MISSING_SECTION_TROUBLESHOOTING", IssueSeverity.ERROR, none, 15)] ∧
      check_image_captions document = [] ∧
      check_heading_sequence document = [] ∧
      check_excessive_depth document = [] ∧
      (analyze_document document).1 = 40 := by
  have ht : document.get_section_titles = [] := by
    simp [Document.get_section_titles, hs]
  have hl : document.get_heading_levels = [] := by
    simp [Document.get_heading_levels, hs]
  have e1 : check_required_sections document = check_required_sections (docOfLevels []) := by
    simp only [check_required_sections, ht]
    decide
  have e2 : check_image_captions document = [] := by
    simp [check_image_captions, hi]
  have e3 : check_heading_sequence document = [] := by
    simp [check_heading_sequence, hl]
  have e4 : check_excessive_depth document = [] := by
    simp [check_excessive_depth, hl]
  refine ⟨?_, e2, e3, e4, ?_⟩
  · rw [e1]; decide
  · have hsc : (analyze_document document).1 =
        max 0 ((check_required_sections document ++ check_image_captions document ++
          check_heading_sequence document ++ check_excessive_depth document).foldl
            (fun s i => s - i.penalty) 100) := rfl
    rw [hsc, e1, e2, e3, e4]
    decide

/-- Claim C4, witness: the theorem applied to a concrete empty document. -/
theorem analyze_empty_document_witness :
    (check_required_sections (docOfLevels [])).map (fun i => (i.id, i.severity, i.page, i.penalty)) =
        [("MISSING_SECTION_INTRODUCTION", IssueSeverity.ERROR, (none : Option Int), (15 : Int)),
         ("MISSING_SECTION_INSTALLATION", IssueSeverity.ERROR, none, 15),
         ("MISSING_SECTION_SAFETY", IssueSeverity.ERROR, none, 15),
         ("MISSING_SECTION_TROUBLESHOOTING", IssueSeverity.ERROR, none, 15)] ∧
      check_image_captions (docOfLevels []) = [] ∧
      check_heading_sequence (docOfLevels []) = [] ∧
      check_excessive_depth (docOfLevels []) = [] ∧
      (analyze_document (docOfLevels [])).1 = 40 :=
  analyze_empty_document (docOfLevels []) rfl rfl

/-- Claim C9: the image-caption check warns on an image exactly when its
caption is None or empty AND its alt text is None or empty (Python truthiness,
not a None test); in particular an image whose caption and alt text are both
present but empty still yields MISSING_IMAGE_CAPTION with penalty 5. -/
theorem check_image_captions_spec :
    (∀ document : Document,
        check_image_captions document =
          (document.images.enum.filter
              (fun p => pyFalsyStr p.2.caption && pyFalsyStr p.2.alt_text)).map
            (fun p =>
              { id := "MISSING_IMAGE_CAPTION_" ++ toString p.1,
                severity := .WARN,
                message := "Image on page " ++ pageOrUnknown p.2.page ++ " missing caption or alt text",
                page := p.2.page,
                penalty := 5 })) ∧
      (∀ img : Image,
        (pyFalsyStr img.caption && pyFalsyStr img.alt_text) = true ↔
          ((img.caption = none ∨ img.caption = some "") ∧
            (img.alt_text = none ∨ img.alt_text = some ""))) ∧
      (check_image_captions
            { sections := [],
              images := [{ caption := some "", page := some 3, alt_text := some "" }],
              metadata := { page_count := 1, word_count := 0,
                            file_type := "docx", file_name := "d.docx" } }).map
          (fun i => (i.id, i.severity, i.penalty)) =
        [("MISSING_IMAGE_CAPTION_0", IssueSeverity.WARN, (5 : Int))] := by
  refine ⟨fun document => filterMap_ite_eq_filter_map _ _ _, fun img => ?_, by decide⟩
  obtain ⟨c, p, a⟩ := img
  cases c <;> cases a <;>
    simp [pyFalsyStr, string_data_isEmpty_iff, string_data_eq_nil_iff]

/-- A document whose only section is titled Quick Start Guide, for claim C10. -/
def quickStartDoc : Document :=
  { sections := [{ title := "Quick Start Guide", level := 1, content := "", page := none }],
    images := [],
    metadata := { page_count := 1, word_count := 0, file_type := "docx", file_name := "d.docx" } }

/-- Claim C10: the keyword table is exactly the stated one; since the keyword
getting started is listed under both introduction and installation, any
document with a lower-cased section title containing it misses neither of
those two canonical sections; and a document titled only Quick Start Guide
satisfies none of the four requirements. -/
theorem required_sections_gating :
    REQUIRED_SECTIONS =
        [("introduction", ["introduction", "intro", "overview", "getting started"]),
         ("installation", ["installation", "install", "setup", "getting started"]),
         ("safety", ["safety", "warning", "caution", "important"]),
         ("troubleshooting", ["troubleshooting", "troubleshoot", "faq", "problems", "issues"])] ∧
      (∀ document : Document,
        (∃ t ∈ document.get_section_titles, pyContains "getting started" t = true) →
          ∀ i ∈ check_required_sections document,
            i.id ≠ "MISSING_SECTION_INTRODUCTION" ∧ i.id ≠ "MISSING_SECTION_INSTALLATION") ∧
      (check_required_sections quickStartDoc).map Issue.id =
        ["MISSING_SECTION_INTRODUCTION", "MISSING_SECTION_INSTALLATION",
         "MISSING_SECTION_SAFETY", "MISSING_SECTION_TROUBLESHOOTING"] := by
  refine ⟨rfl, ?_, by decide⟩
  rintro document ⟨t, ht, hc⟩ i hi
  have hfound : ∀ kws : List String, "getting started" ∈ kws →
      (document.get_section_titles.any
        (fun title => kws.any (fun keyword => pyContains keyword title))) = true := by
    intro kws hmem
    rw [List.any_eq_true]
    exact ⟨t, ht, by rw [List.any_eq_true]; exact ⟨"getting started", hmem, hc⟩⟩
  simp only [check_required_sections, List.mem_filterMap] at hi
  obtain ⟨entry, hentry, hfa⟩ := hi
  split at hfa
  · exact Option.noConfusion hfa
  · cases Option.some.inj hfa
    simp only [REQUIRED_SECTIONS, List.mem_cons, List.not_mem_nil, or_false] at hentry
    rcases hentry with rfl | rfl | rfl | rfl
    · rename_i hcond
      exact absurd (hfound _ (by decide)) hcond
    · rename_i hcond
      exact absurd (hfound _ (by decide)) hcond
    · exact ⟨by decide, by decide⟩
    · exact ⟨by decide, by decide⟩

/-! ## DOCX parser (`parsing/docx_parser.py`) -/

/-- Token counter behind `len(text.split())`: counts maximal runs of
non-whitespace characters.  The Boolean argument records whether the previous
character was inside a token. -/
def countTokens : List Char → Bool → Nat
  | [], _ => 0
  | c :: rest, inTok =>
    if c.isWhitespace then countTokens rest false
    else (if inTok then 0 else 1) + countTokens rest true

/-- Python `len(s.split())`: the number of whitespace-delimited tokens. -/
def pyWordCount (s : String) : Nat := countTokens s.data false

/-- Python `str.strip` over the character list. -/
def stripChars (l : List Char) : List Char :=
  ((l.dropWhile Char.isWhitespace).reverse.dropWhile Char.isWhitespace).reverse

/-- Python `str.strip`. -/
def pyStrip (s : String) : String := ⟨stripChars s.data⟩

/-- Numeric value of a run of decimal digits (Python `int(...)` on the
digits captured by the regex). -/
def digitsVal (l : List Char) : Nat :=
  l.foldl (fun acc c => acc * 10 + (c.toNat - 48)) 0

/-- One attempt of `re.search(r"Heading (\d+)", ...)` at the present position:
the text must continue with `Heading ` followed by at least one digit; the
greedy `\d+` captures the maximal digit run. -/
def headingMatchAt (l : List Char) : Option Nat :=
  if startsWithList l "Heading ".data then
    let ds := (l.drop 8).takeWhile Char.isDigit
    if ds.isEmpty then none else some (digitsVal ds)
  else none

/-- `re.search(r"Heading (\d+)", s)` over the characters of `s`: the leftmost
position where the pattern matches wins. -/
def searchHeadingLevel : List Char → Option Nat
  | [] => none
  | c :: rest =>
    match headingMatchAt (c :: rest) with
    | some n => some n
    | none => searchHeadingLevel rest

/-- Python `"\n".join(parts)`. -/
def joinNewline : List String → String
  | [] => ""
  | s :: rest => rest.foldl (fun acc t => acc ++ "\n" ++ t) s

/-- A paragraph of the python-docx document object: its style name
(`paragraph.style.name`) and its raw text. -/
structure Paragraph where
  style : String
  text : String
deriving Repr, DecidableEq

/-- The paragraph loop of `parse_docx`.  State: produced sections, the open
section accumulator (title and level, `none` before any section starts), the
content lines collected so far, and the running word count.  `current_page`
is the Python local of the same name; it is initialized to 1 and never
reassigned. -/
def docxLoop (current_page : Int) :
    List Paragraph → List Section → Option (String × Int) → List String → Nat →
      List Section × Option (String × Int) × List String × Nat
  | [], sections, cur, content, wc => (sections, cur, content, wc)
  | p :: rest, sections, cur, content, wc =>
    let text := pyStrip p.text
    if text.data.isEmpty then
      docxLoop current_page rest sections cur content wc
    else
      let wcNew := wc + pyWordCount text
      if startsWithList p.style.data "Heading".data then
        let flushed :=
          match cur with
          | some tl =>
            sections ++ [{ title := tl.1, level := tl.2,
                           content := joinNewline content, page := some current_page }]
          | none => sections
        let level : Int :=
          match searchHeadingLevel p.style.data with
          | some n => (n : Int)
          | none => 1
        docxLoop current_page rest flushed (some (text, level)) [] wcNew
      else
        match cur with
        | none => docxLoop current_page rest sections (some ("Introduction", 1))
            (content ++ [text]) wcNew
        | some _ => docxLoop current_page rest sections cur (content ++ [text]) wcNew

/-- `parsing/docx_parser.py`: `parse_docx`.  In place of the file handle the
embedding receives the document paragraphs and the target references of the
package relationships (`doc.part.rels`, the source of images). -/
def parse_docx (paragraphs : List Paragraph) (rels : List String) (file_name : String) :
    Document :=
  let current_page : Int := 1
  let st := docxLoop current_page paragraphs [] none [] 0
  let sections :=
    match st.2.1 with
    | some tl =>
      st.1 ++ [{ title := tl.1, level := tl.2,
                 content := joinNewline st.2.2.1, page := some current_page }]
    | none => st.1
  let images := rels.filterMap (fun r =>
    if containsList r.data "image".data then
      some ({ caption := none, page := some current_page, alt_text := none } : Image)
    else none)
  let estimated_pages := max 1 (st.2.2.2 / 500)
  { sections := sections,
    images := images,
    metadata := { page_count := estimated_pages, word_count := st.2.2.2,
                  file_type := "docx", file_name := file_name } }

/-! ## PDF heading heuristic (`parsing/pdf_parser.py`) -/

/-- ASCII approximation of Python `str.isupper`: at least one cased character
and no lower-case character. -/
def pyIsUpper (s : String) : Bool :=
  s.data.any (fun c => c.isUpper || c.isLower) && s.data.all (fun c => !c.isLower)

/-- `line[0].isupper()`.  The parser only reaches this test on non-blank
lines, so the empty-list default is never exercised there. -/
def firstIsUpper (s : String) : Bool :=
  match s.data with
  | [] => false
  | c :: _ => c.isUpper

/-- `line.endswith('.')`. -/
def endsWithDot (s : String) : Bool :=
  match s.data.getLast? with
  | some c => c == '.'
  | none => false

/-- `any(char.isdigit() for char in line[-3:])`. -/
def digitInLastThree (s : String) : Bool :=
  (s.data.reverse.take 3).any Char.isDigit

/-- The `is_heading` condition of `parse_pdf`: line under 100 characters and
either fully upper-case, or starting upper-case, not ending in a period and
with no digit among the last three characters. -/
def is_heading (line : String) : Bool :=
  decide (line.length < 100) &&
    (pyIsUpper line ||
      (firstIsUpper line && !endsWithDot line && !digitInLastThree line))

/-- The effective heading test of `parse_pdf`: `is_heading` conjoined with the
separate under-80-characters gate. -/
def pdfHeadingTest (line : String) : Bool :=
  is_heading line && decide (line.length < 80)

/-- The same effective test as the spec proposes simplifying it: the
under-100-characters conjunct removed, only the under-80 gate kept. -/
def pdfHeadingTestNoLen100 (line : String) : Bool :=
  (pyIsUpper line ||
      (firstIsUpper line && !endsWithDot line && !digitInLastThree line)) &&
    decide (line.length < 80)

/-- Claim C7: the effective PDF heading predicate equals the same predicate
with the under-100-characters conjunct removed; the 100-character check is
subsumed by the stricter 80-character gate. -/
theorem pdf_heading_length_gate_equiv (line : String) :
    pdfHeadingTest line = pdfHeadingTestNoLen100 line := by
  unfold pdfHeadingTest pdfHeadingTestNoLen100 is_heading
  by_cases h : line.length < 80
  · have h100 : line.length < 100 := by omega
    simp [h, h100]
  · simp [h]

/-- Every section the DOCX paragraph loop adds carries the constant page. -/
lemma docxLoop_sections_page (cp : Int) :
    ∀ (ps : List Paragraph) (sections : List Section) (cur : Option (String × Int))
      (content : List String) (wc : Nat),
      (∀ s ∈ sections, s.page = some cp) →
      ∀ s ∈ (docxLoop cp ps sections cur content wc).1, s.page = some cp := by
  intro ps
  induction ps with
  | nil =>
    intro sections cur content wc h s hs
    simp only [docxLoop] at hs
    exact h s hs
  | cons p rest ih =>
    intro sections cur content wc h s hs
    simp only [docxLoop] at hs
    split at hs
    · exact ih _ _ _ _ h s hs
    · split at hs
      · refine ih _ _ _ _ ?_ s hs
        intro x hx
        cases cur with
        | none => exact h x hx
        | some tl =>
          rcases List.mem_append.1 hx with hx | hx
          · exact h x hx
          · rw [List.mem_singleton] at hx; subst hx; rfl
      · cases cur with
        | none => exact ih _ _ _ _ h s hs
        | some tl => exact ih _ _ _ _ h s hs

/-- Claim C8: `parse_docx` estimates the page count as
`max 1 (word_count // 500)`, and every section and every image it produces
carries the constant page number 1. -/
theorem parse_docx_pages (paragraphs : List Paragraph) (rels : List String)
    (file_name : String) :
    (parse_docx paragraphs rels file_name).metadata.page_count =
        max 1 ((parse_docx paragraphs rels file_name).metadata.word_count / 500) ∧
      (∀ s ∈ (parse_docx paragraphs rels file_name).sections, s.page = some 1) ∧
      (∀ img ∈ (parse_docx paragraphs rels file_name).images, img.page = some 1) := by
  refine ⟨rfl, ?_, ?_⟩
  · intro s hs
    have hbase : ∀ x ∈ (docxLoop 1 paragraphs [] none [] 0).1, x.page = some (1 : Int) :=
      docxLoop_sections_page 1 paragraphs [] none [] 0 (by intro x hx; simp at hx)
    rcases hcur : (docxLoop 1 paragraphs [] none [] 0).2.1 with _ | tl
    · have hsec : (parse_docx paragraphs rels file_name).sections =
          (docxLoop 1 paragraphs [] none [] 0).1 := by
        simp only [parse_docx, hcur]
      rw [hsec] at hs
      exact hbase s hs
    · have hsec : (parse_docx paragraphs rels file_name).sections =
          (docxLoop 1 paragraphs [] none [] 0).1 ++
            [{ title := tl.1, level := tl.2,
               content := joinNewline (docxLoop 1 paragraphs [] none [] 0).2.2.1,
               page := some 1 }] := by
        simp only [parse_docx, hcur]
      rw [hsec] at hs
      rcases List.mem_append.1 hs with hs | hs
      · exact hbase s hs
      · rw [List.mem_singleton] at hs; subst hs; rfl
  · intro img hi
    have himg : (parse_docx paragraphs rels file_name).images =
        rels.filterMap (fun r =>
          if containsList r.data "image".data then
            some ({ caption := none, page := some 1, alt_text := none } : Image)
          else none) := rfl
    rw [himg, List.mem_filterMap] at hi
    obtain ⟨r, -, hr⟩ := hi
    split at hr
    · cases Option.some.inj hr; rfl
    · exact Option.noConfusion hr

/-- The token state after a list of characters: inside a token exactly when
the last character seen is not whitespace. -/
def tokenState : List Char → Bool → Bool
  | [], b => b
  | c :: rest, _ => tokenState rest (!c.isWhitespace)

lemma countTokens_append (l m : List Char) (b : Bool) :
    countTokens (l ++ m) b = countTokens l b + countTokens m (tokenState l b) := by
  induction l generalizing b with
  | nil => simp [countTokens, tokenState]
  | cons c rest ih =>
    by_cases h : c.isWhitespace
    · simp [countTokens, tokenState, h, ih]
    · simp [countTokens, tokenState, h, ih]
      omega

lemma countTokens_all_ws (m : List Char) (b : Bool) (h : ∀ c ∈ m, c.isWhitespace) :
    countTokens m b = 0 := by
  induction m generalizing b with
  | nil => rfl
  | cons c rest ih =>
    have hc := h c (List.mem_cons_self _ _)
    simp only [countTokens, hc, if_true]
    exact ih _ (fun x hx => h x (List.mem_cons_of_mem _ hx))

lemma countTokens_dropWhile_ws (l : List Char) :
    countTokens (l.dropWhile Char.isWhitespace) false = countTokens l false := by
  induction l with
  | nil => rfl
  | cons c rest ih =>
    by_cases h : c.isWhitespace
    · rw [List.dropWhile_cons]
      simp only [h, if_true, countTokens, ih]
    · rw [List.dropWhile_cons]
      simp [h]

lemma countTokens_trimTrailing (l : List Char) (b : Bool) :
    countTokens ((l.reverse.dropWhile Char.isWhitespace).reverse) b = countTokens l b := by
  have hdecomp : l = (l.reverse.dropWhile Char.isWhitespace).reverse ++
      (l.reverse.takeWhile Char.isWhitespace).reverse := by
    rw [← List.reverse_append, List.takeWhile_append_dropWhile, List.reverse_reverse]
  conv_rhs => rw [hdecomp]
  rw [countTokens_append]
  have hz : countTokens ((l.reverse.takeWhile Char.isWhitespace).reverse)
      (tokenState ((l.reverse.dropWhile Char.isWhitespace).reverse) b) = 0 := by
    apply countTokens_all_ws
    intro c hc
    rw [List.mem_reverse] at hc
    exact List.mem_takeWhile_imp hc
  rw [hz, Nat.add_zero]

/-- Stripping leading and trailing whitespace does not change the number of
whitespace-delimited tokens. -/
lemma pyWordCount_strip (s : String) : pyWordCount (pyStrip s) = pyWordCount s := by
  show countTokens (stripChars s.data) false = countTokens s.data false
  unfold stripChars
  rw [countTokens_trimTrailing, countTokens_dropWhile_ws]

/-- Claim C3, counterexample: on the claimed document shape the parser's word
count is not the token count of the three plain paragraphs alone — the loop
adds `len(text.split())` before testing whether the paragraph is a heading, so
the heading texts are counted too (9 tokens, not 7). -/
theorem parse_docx_word_count_heading_counterexample :
    (parse_docx [⟨"Heading 1", "Introduction"⟩, ⟨"Normal", "Some text here"⟩,
          ⟨"Normal", "More text"⟩, ⟨"Heading 2", "Setup"⟩, ⟨"Normal", "Final paragraph"⟩]
          [] "guide.docx").metadata.word_count ≠
      pyWordCount "Some text here" + pyWordCount "More text" + pyWordCount "Final paragraph" := by
  decide

/-- Claim C3 as amended: the document parses into exactly 2 sections with
levels [1, 2], and its word count is the token count of the three plain
paragraphs PLUS the tokens of the two heading paragraphs (heading text is
counted toward word_count). -/
theorem parse_docx_round_trip (p1 p2 p3 : String)
    (h1 : pyStrip p1 ≠ "") (h2 : pyStrip p2 ≠ "") (h3 : pyStrip p3 ≠ "") :
    (parse_docx [⟨"Heading 1", "Introduction"⟩, ⟨"Normal", p1⟩, ⟨"Normal", p2⟩,
          ⟨"Heading 2", "Setup"⟩, ⟨"Normal", p3⟩] [] "guide.docx").sections.map
        (fun s => (s.title, s.level)) = [("Introduction", 1), ("Setup", 2)] ∧
      (parse_docx [⟨"Heading 1", "Introduction"⟩, ⟨"Normal", p1⟩, ⟨"Normal", p2⟩,
          ⟨"Heading 2", "Setup"⟩, ⟨"Normal", p3⟩] [] "guide.docx").metadata.word_count =
        pyWordCount p1 + pyWordCount p2 + pyWordCount p3 +
          pyWordCount "Introduction" + pyWordCount "Setup" := by
  have e1 : (pyStrip p1).data.isEmpty = false := by
    rw [← Bool.not_eq_true, string_data_isEmpty_iff]; exact h1
  have e2 : (pyStrip p2).data.isEmpty = false := by
    rw [← Bool.not_eq_true, string_data_isEmpty_iff]; exact h2
  have e3 : (pyStrip p3).data.isEmpty = false := by
    rw [← Bool.not_eq_true, string_data_isEmpty_iff]; exact h3
  have g1 : pyStrip "Introduction" = "Introduction" := by decide
  have g2 : pyStrip "Setup" = "Setup" := by decide
  have g3 : ("Introduction" : String).data.isEmpty = false := by decide
  have g4 : ("Setup" : String).data.isEmpty = false := by decide
  have g5 : startsWithList "Heading 1".data "Heading".data = true := by decide
  have g6 : startsWithList "Heading 2".data "Heading".data = true := by decide
  have g7 : startsWithList "Normal".data "Heading".data = false := by decide
  have g8 : searchHeadingLevel "Heading 1".data = some 1 := by decide
  have g9 : searchHeadingLevel "Heading 2".data = some 2 := by decide
  have g10 : pyWordCount "Introduction" = 1 := by decide
  have g11 : pyWordCount "Setup" = 1 := by decide
  constructor
  · simp [parse_docx, docxLoop, e1, e2, e3, g1, g2, g3, g4, g5, g6, g7, g8, g9]
  · simp [parse_docx, docxLoop, e1, e2, e3, g1, g2, g3, g4, g5, g6, g7, g8, g9,
      g10, g11, pyWordCount_strip]
    omega

/-- Claim C3, witness: the amended round-trip theorem applied to three
concrete plain paragraphs. -/
theorem parse_docx_round_trip_witness :
    (parse_docx [⟨"Heading 1", "Introduction"⟩, ⟨"Normal", "Some text here"⟩,
          ⟨"Normal", "More text"⟩, ⟨"Heading 2", "Setup"⟩, ⟨"Normal", "Final paragraph"⟩]
          [] "guide.docx").sections.map
        (fun s => (s.title, s.level)) = [("Introduction", 1), ("Setup", 2)] ∧
      (parse_docx [⟨"Heading 1", "Introduction"⟩, ⟨"Normal", "Some text here"⟩,
          ⟨"Normal", "More text"⟩, ⟨"Heading 2", "Setup"⟩, ⟨"Normal", "Final paragraph"⟩]
          [] "guide.docx").metadata.word_count =
        pyWordCount "Some text here" + pyWordCount "More text" + pyWordCount "Final paragraph" +
          pyWordCount "Introduction" + pyWordCount "Setup" :=
  parse_docx_round_trip "Some text here" "More text" "Final paragraph"
    (by decide) (by decide) (by decide)

/-! ## API endpoints (`api/analyze.py`, `api/suggest_fixes.py`) and the AI
fixer stub (`ai/fixer.py`) -/

/-- `models/issue_model.py`: `LintSummary`. -/
structure LintSummary where
  errors : Nat
  warnings : Nat
deriving Repr, DecidableEq

/-- `models/issue_model.py`: `LintReport`. -/
structure LintReport where
  score : Int
  summary : LintSummary
  issues : List Issue
deriving Repr, DecidableEq

/-- A Python exception as the analyze endpoint's `except` clause sees it:
either a `fastapi.HTTPException` (whose `str` is `"status: detail"`) or any
other exception rendered by its message. -/
inductive PyError where
  | http (status : Nat) (detail : String)
  | exn (msg : String)
deriving Repr, DecidableEq

/-- Python `str(e)` on the exceptions above. -/
def pyErrorStr : PyError → String
  | .http status detail => toString status ++ ": " ++ detail
  | .exn msg => msg

/-- The response of the analyze endpoint: an `HTTPException` or a report. -/
inductive AnalyzeOutcome where
  | httpError (status : Nat) (detail : String)
  | report (r : LintReport)
deriving Repr, DecidableEq

/-- `api/analyze.py`: the `allowed_extensions` set.  Python set iteration
order is unspecified, so only membership is modelled faithfully. -/
def allowed_extensions : List String := [".docx", ".pdf", ".doc", ".md"]

/-- The body of the analyze endpoint after the report is computed: the summary
counts issues by severity, not by penalty. -/
def buildLintReport (document : Document) : LintReport :=
  let r := analyze_document document
  { score := r.1,
    summary := { errors := (r.2.filter (fun i => i.severity == .ERROR)).length,
                 warnings := (r.2.filter (fun i => i.severity == .WARN)).length },
    issues := r.2 }

/-- The `try` block of `analyze_document_endpoint`: dispatch on the extension;
`.docx` and `.doc` go to `parse_docx`, `.pdf` to `parse_pdf`, anything else
(only `.md` survives the earlier gate) raises `HTTPException(501)`.  The
parser call is abstracted by `parseResult`: a parser exception becomes a
raised error. -/
def analyzeTryBody (file_ext : String) (parseResult : Except String Document) :
    Except PyError LintReport :=
  if file_ext == ".docx" || file_ext == ".doc" then
    match parseResult with
    | .error e => .error (.exn e)
    | .ok document => .ok (buildLintReport document)
  else if file_ext == ".pdf" then
    match parseResult with
    | .error e => .error (.exn e)
    | .ok document => .ok (buildLintReport document)
  else
    .error (.http 501 "Markdown parsing not yet implemented")

/-- `api/analyze.py`: `analyze_document_endpoint`, as a function of the
lower-cased filename extension and the abstract parser outcome.  An extension
outside the allowed set is rejected with status 400 before the temporary file
is written or any parser runs; every exception raised inside the `try`
block — the 501 `HTTPException` for `.md` included — is caught by
`except Exception` and re-raised as status 500 with `str(e)` in the detail. -/
def analyze_document_endpoint (file_ext : String) (parseResult : Except String Document) :
    AnalyzeOutcome :=
  if !(allowed_extensions.contains file_ext) then
    .httpError 400 "Unsupported file type. Allowed: .docx, .pdf, .doc, .md"
  else
    match analyzeTryBody file_ext parseResult with
    | .ok r => .report r
    | .error e => .httpError 500 ("Error processing document: " ++ pyErrorStr e)

/-- Claim C5: an extension outside the allowed set is rejected with the same
400 outcome whatever the parser would have produced (no parsing is attempted),
while `.md` flows into the not-implemented branch: its 501 HTTPException is
caught and surfaced as a 500 whose detail carries the 501 not-implemented
message — an outcome distinct from the unsupported-type rejection. -/
theorem analyze_endpoint_extension_gate :
    (∀ (file_ext : String) (parseResult : Except String Document),
        allowed_extensions.contains file_ext = false →
          analyze_document_endpoint file_ext parseResult =
            .httpError 400 "Unsupported file type. Allowed: .docx, .pdf, .doc, .md") ∧
      (∀ parseResult : Except String Document,
        analyze_document_endpoint ".md" parseResult =
          .httpError 500 "Error processing document: 501: Markdown parsing not yet implemented") ∧
      (AnalyzeOutcome.httpError 500
          "Error processing document: 501: Markdown parsing not yet implemented" ≠
        AnalyzeOutcome.httpError 400 "Unsupported file type. Allowed: .docx, .pdf, .doc, .md") := by
  refine ⟨?_, ?_, by decide⟩
  · intro file_ext parseResult h
    unfold analyze_document_endpoint
    rw [h]
    rfl
  · intro parseResult
    rfl

/-- `ai/fixer.py`: `FixSuggestion`.  The confidence is a Python float; no
value of this type is ever constructed by the stub, so a rational stands in
for it. -/
structure FixSuggestion where
  issue_id : String
  original : String
  suggested : String
  confidence : Rat

set_option linter.unusedVariables false in
/-- `ai/fixer.py`: `generate_fixes`.  When the flag is off (the Python default)
it returns `[]` at once; otherwise the suggestion list stays empty because the
LLM integration is an unimplemented TODO. -/
def generate_fixes (document : Document) (issues : List Issue) (enabled : Bool) :
    List FixSuggestion :=
  if !enabled then []
  else
    let suggestions : List FixSuggestion := []
    suggestions

/-- `api/suggest_fixes.py`: `FixSuggestionResponse`. -/
structure FixSuggestionResponse where
  issue_id : String
  original : String
  suggested : String
  confidence : Rat

/-- The response of the suggest-fixes endpoint: the returned dict (suggestions
plus optional message) or a raised `HTTPException`. -/
inductive SuggestOutcome where
  | body (suggestions : List FixSuggestionResponse) (message : Option String)
  | httpError (status : Nat) (detail : String)

/-- `api/suggest_fixes.py`: `suggest_fixes_endpoint`.  A pydantic `Document`
model instance is always truthy, so `if not request.document` is exactly a
`None` test. -/
def suggest_fixes_endpoint (issues : List Issue) (document : Option Document)
    (enabled : Bool) : SuggestOutcome :=
  if !enabled then
    .body [] (some "AI fixes are disabled. Set enabled=true to activate.")
  else
    match document with
    | none => .httpError 400 "Document context required for AI suggestions"
    | some doc =>
      .body ((generate_fixes doc issues true).map (fun s =>
        { issue_id := s.issue_id, original := s.original,
          suggested := s.suggested, confidence := s.confidence })) none

/-- Claim C6: with the enablement flag false, `generate_fixes` returns the
empty list for every document and issue list; and at the endpoint, enabled
with no document is a 400 caller error, an outcome distinct from every
disabled short-circuit response. -/
theorem generate_fixes_disabled :
    (∀ (document : Document) (issues : List Issue),
        generate_fixes document issues false = []) ∧
      (∀ issues : List Issue,
        suggest_fixes_endpoint issues none true =
          .httpError 400 "Document context required for AI suggestions") ∧
      (∀ (suggestions : List FixSuggestionResponse) (message : Option String),
        SuggestOutcome.httpError 400 "Document context required for AI suggestions" ≠
          SuggestOutcome.body suggestions message) := by
  refine ⟨fun _ _ => rfl, fun _ => rfl, ?_⟩
  intro suggestions message h
  exact SuggestOutcome.noConfusion h

end DocForge
